import Mathlib

/-!
# Newlib operating system interface of the cxxdemo (`scripts/cxxdemo/syscalls.c`)

A shallow embedding of the system-call stubs.  Every C function becomes a Lean
function that takes the process state and returns the C return value together
with the new state.  The loop of `write` returns an `Option`: `none` when its
iteration budget is used up.  `gettimeofday` and `_exit` execute the trap
`sbreak` and never return, which is `none`; `times`, which calls
`gettimeofday`, has an `Outcome`.

What the C file takes from the headers of the C library and from the linker
script (type widths, error numbers, `CLOCKS_PER_SEC`, `_SC_CLK_TCK`, `_end`) is
not part of the file; it is collected in `Platform` and every definition is
parametrised by it.
-/

set_option maxRecDepth 100000

namespace Syscalls

/-! ## Platform parameters and machine integers -/

/-- Header and linker supplied facts the C file depends on. -/
structure Platform where
  /-- Width in bits of pointers, `size_t`, `ssize_t`, `ptrdiff_t`, `long`,
  `unsigned long`, `suseconds_t` and (newlib) `clock_t`. -/
  XLEN : Nat
  /-- Width in bits of `time_t`. -/
  TIME_BITS : Nat
  /-- Whether plain `char` is a signed type. -/
  CHAR_SIGNED : Bool
  /-- Address of the linker symbol `_end`. -/
  _end : Int
  CLOCKS_PER_SEC : Int
  _SC_CLK_TCK : Int
  ENOENT : Int
  ESPIPE : Int
  ENOMEM : Int
  EAGAIN : Int
  EINVAL : Int
  ECHILD : Int

/-- The target of the repository: a 32 bit RISC-V core with newlib (32 bit
`long`, unsigned `char`, 64 bit `time_t`, one million clock ticks per second,
newlib's error numbers).  The value of `_end` is an example; the linker
decides it. -/
def picorv32 : Platform where
  XLEN := 32
  TIME_BITS := 64
  CHAR_SIGNED := false
  _end := 0x00010000
  CLOCKS_PER_SEC := 1000000
  _SC_CLK_TCK := 2
  ENOENT := 2
  ESPIPE := 29
  ENOMEM := 12
  EAGAIN := 11
  EINVAL := 22
  ECHILD := 10

/-- Conversion to an unsigned integer type of `w` bits. -/
def wrapU (w : Nat) (x : Int) : Int := x % 2 ^ w

/-- Conversion to a two's complement signed integer type of `w` bits. -/
def wrapS (w : Nat) (x : Int) : Int := (x + 2 ^ (w - 1)) % 2 ^ w - 2 ^ (w - 1)

/-- Width in bits of `unsigned int`. -/
def UINT_BITS : Nat := 32

/-- Width in bits of `long long`. -/
def LLONG_BITS : Nat := 64

/-! ## Process state -/

/-- Mirror of `struct timeval`: seconds and microseconds. -/
structure timeval where
  tv_sec : Int
  tv_usec : Int
  deriving DecidableEq, Repr

/-- Mirror of `struct tms`. -/
structure tms where
  tms_utime : Int
  tms_stime : Int
  tms_cutime : Int
  tms_cstime : Int
  deriving DecidableEq, Repr

/-- Mirror of `struct timeb`. -/
structure timeb where
  time : Int
  millitm : Int
  timezone : Int
  dstflag : Int
  deriving DecidableEq, Repr

/-- Address of the output device register used by `write`. -/
def OUTPORT : Nat := 0x10000000

/-- Everything the stubs can read or change.

* `errno`    : the error slot of the C library;
* `heap_end` : the `static unsigned long heap_end` of `sbrk`;
* `t0`       : the `static struct timeval t0` of `times`;
* `mem`      : data memory, one byte per address;
* `dev`      : the stores made to device registers so far, oldest first, each
               with its address and the 32 bit value stored; the register is
               a write-only sink, a store to it does not change `mem`;
* `clock`    : the readings an external wall-clock source would hand out,
               in order; no function of the C file reads it, it serves the
               statements that put such a source in the place of
               `gettimeofday` (see `clock_source`). -/
structure State where
  errno : Int
  heap_end : Int
  t0 : timeval
  mem : Nat → Nat
  dev : List (Nat × Nat)
  clock : List timeval

/-- State at process start: statics are zero, nothing has been output. -/
def initial_state (mem : Nat → Nat) (clock : List timeval) : State where
  errno := 0
  heap_end := 0
  t0 := ⟨0, 0⟩
  mem := mem
  dev := []
  clock := clock

/-! ## File management -/

/-- Embedding of `int open(const char* name, int flags, int mode)`. -/
def open_ (P : Platform) (_name : Nat) (_flags _mode : Int) (s : State) : Int × State :=
  (-1, { s with errno := P.ENOENT })

/-- Embedding of `int openat(int dirfd, const char* name, int flags, int mode)`. -/
def openat (P : Platform) (_dirfd : Int) (_name : Nat) (_flags _mode : Int) (s : State) :
    Int × State :=
  (-1, { s with errno := P.ENOENT })

/-- Embedding of `off_t lseek(int file, off_t ptr, int dir)`. -/
def lseek (P : Platform) (_file _ptr _dir : Int) (s : State) : Int × State :=
  (-1, { s with errno := P.ESPIPE })

/-- Embedding of `ssize_t read(int file, void *ptr, size_t len)`. -/
def read (_P : Platform) (_file : Int) (_ptr _len : Nat) (s : State) : Int × State :=
  (0, s)

/-- Conversion of a `char` holding the byte `b` to `unsigned int`: bytes from
128 up are negative when `char` is signed, and wrap around. -/
def char_to_uint (P : Platform) (b : Nat) : Nat :=
  if P.CHAR_SIGNED && decide (128 ≤ b) then 2 ^ UINT_BITS - 256 + b else b

/-- Value of `*(char*)a` after conversion to `unsigned int`. -/
def load_char (P : Platform) (s : State) (a : Nat) : Nat :=
  char_to_uint P (s.mem a % 256)

/-- The loop `while (ptr != eptr) *p = *(char*)(ptr++);` of `write`, with `p`
the output register.  `fuel` bounds the number of iterations; `none` means the
bound was reached with the loop still running. -/
def write_loop (P : Platform) : Nat → Nat → Nat → State → Option State
  | fuel, ptr, eptr, s =>
    if ptr = eptr then some s
    else
      match fuel with
      | 0 => none
      | fuel + 1 =>
        write_loop P fuel ((ptr + 1) % 2 ^ P.XLEN) eptr
          { s with dev := s.dev ++ [(OUTPORT, load_char P s ptr)] }

/-- Embedding of `ssize_t write(int file, const void *ptr, size_t len)`. -/
def write (P : Platform) (fuel : Nat) (_file : Int) (ptr len : Nat) (s : State) :
    Option (Int × State) :=
  let eptr := (ptr + len) % 2 ^ P.XLEN
  match write_loop P fuel ptr eptr s with
  | none => none
  | some s' => some (wrapS P.XLEN (len : Int), s')

/-- Embedding of `int fstat(int file, struct stat *st)`. -/
def fstat (P : Platform) (_file : Int) (_st : Nat) (s : State) : Int × State :=
  (-1, { s with errno := P.ENOENT })

/-- Embedding of `int stat(const char *file, struct stat *st)`. -/
def stat (P : Platform) (_file _st : Nat) (s : State) : Int × State :=
  (-1, { s with errno := P.ENOENT })

/-- Embedding of `int lstat(const char *file, struct stat *st)`. -/
def lstat (P : Platform) (_file _st : Nat) (s : State) : Int × State :=
  (-1, { s with errno := P.ENOENT })

/-- Embedding of `int fstatat(int dirfd, const char *file, struct stat *st, int flags)`. -/
def fstatat (P : Platform) (_dirfd : Int) (_file _st : Nat) (_flags : Int) (s : State) :
    Int × State :=
  (-1, { s with errno := P.ENOENT })

/-- Embedding of `int access(const char *file, int mode)`. -/
def access (P : Platform) (_file : Nat) (_mode : Int) (s : State) : Int × State :=
  (-1, { s with errno := P.ENOENT })

/-- Embedding of `int faccessat(int dirfd, const char *file, int mode, int flags)`. -/
def faccessat (P : Platform) (_dirfd : Int) (_file : Nat) (_mode _flags : Int) (s : State) :
    Int × State :=
  (-1, { s with errno := P.ENOENT })

/-- Embedding of `int close(int file)`. -/
def close (_P : Platform) (_file : Int) (s : State) : Int × State :=
  (0, s)

/-- Embedding of `int link(const char *old_name, const char *new_name)`. -/
def link (P : Platform) (_old_name _new_name : Nat) (s : State) : Int × State :=
  (-1, { s with errno := P.ENOENT })

/-- Embedding of `int unlink(const char *name)`. -/
def unlink (P : Platform) (_name : Nat) (s : State) : Int × State :=
  (-1, { s with errno := P.ENOENT })

/-! ## Process management -/

/-- Embedding of `int execve(const char *name, char *const argv[], char *const env[])`. -/
def execve (P : Platform) (_name _argv _env : Nat) (s : State) : Int × State :=
  (-1, { s with errno := P.ENOMEM })

/-- Embedding of `int fork()`. -/
def fork (P : Platform) (s : State) : Int × State :=
  (-1, { s with errno := P.EAGAIN })

/-- Embedding of `int getpid()`. -/
def getpid (_P : Platform) (s : State) : Int × State :=
  (1, s)

/-- Embedding of `int kill(int pid, int sig)`. -/
def kill (P : Platform) (_pid _sig : Int) (s : State) : Int × State :=
  (-1, { s with errno := P.EINVAL })

/-- Embedding of `int wait(int *status)`. -/
def wait (P : Platform) (_status : Nat) (s : State) : Int × State :=
  (-1, { s with errno := P.ECHILD })

/-! ## Miscellaneous -/

/-- Embedding of `int isatty(int file)`. -/
def isatty (_P : Platform) (_file : Int) (s : State) : Int × State :=
  (1, s)

/-- Conversion to `clock_t`, which newlib declares as `unsigned long`. -/
def clock_t (P : Platform) (x : Int) : Int := wrapU P.XLEN x

/-- Embedding of `int gettimeofday(struct timeval *tp, void *tzp)`.  The C body
is `asm volatile ("sbreak"); __builtin_unreachable();`, the same as that of
`_exit`: the trap is executed and the caller is never resumed. -/
def gettimeofday (_P : Platform) (_s : State) : Option (timeval × State) :=
  none

/-- An external source of wall-clock readings, to stand in the place of
`gettimeofday` in statements that assume the readings are returned: it hands
out the readings of `s.clock` in order, and does not return when none is
left. -/
def clock_source (s : State) : Option (timeval × State) :=
  match s.clock with
  | [] => none
  | r :: rest => some (r, { s with clock := rest })

/-- What becomes of a call. -/
inductive Outcome (α : Type) where
  /-- The call returns with this result. -/
  | returned (a : α)
  /-- A trap was executed and the caller is never resumed. -/
  | trapped
  /-- A signed operation overflowed, for which C defines no result. -/
  | undefined
  deriving DecidableEq

/-- Apply a function to the result of a call that returns. -/
def Outcome.map {α β : Type} (f : α → β) : Outcome α → Outcome β
  | Outcome.returned a => Outcome.returned (f a)
  | Outcome.trapped => Outcome.trapped
  | Outcome.undefined => Outcome.undefined

/-- The value `x` is representable in a signed type of `w` bits. -/
def fits_signed (w : Nat) (x : Int) : Prop := 1 ≤ w ∧ -(2 ^ (w - 1)) ≤ x ∧ x < 2 ^ (w - 1)

instance (w : Nat) (x : Int) : Decidable (fits_signed w x) := by
  unfold fits_signed
  infer_instance

/-- Result of a signed operation in a type of `w` bits whose exact value is
`x`: `x` when it is representable, no defined result otherwise. -/
def checked (w : Nat) (x : Int) : Option Int :=
  if fits_signed w x then some x else none

/-- The value assigned to `buf->tms_utime` in `times`:
`utime = (t.tv_sec - t0.tv_sec) * 1000000 + (t.tv_usec - t0.tv_usec)` evaluated
in `time_t`, `long` and then converted to `long long`, followed by
`utime * CLOCKS_PER_SEC / 1000000` in `long long` (C division truncates) and
the conversion to `clock_t`.  `none` when one of the signed operations
overflows. -/
def times_ticks (P : Platform) (t0 t : timeval) : Option Int :=
  match checked P.TIME_BITS (t.tv_sec - t0.tv_sec) with
  | none => none
  | some ds =>
    match checked P.TIME_BITS (ds * 1000000) with
    | none => none
    | some m =>
      match checked P.XLEN (t.tv_usec - t0.tv_usec) with
      | none => none
      | some du =>
        match checked (max P.TIME_BITS P.XLEN) (m + du) with
        | none => none
        | some sum =>
          let utime := wrapS LLONG_BITS sum
          match checked LLONG_BITS (utime * P.CLOCKS_PER_SEC) with
          | none => none
          | some prod => some (clock_t P (Int.tdiv prod 1000000))

/-- The statement `if (t0.tv_sec == 0) gettimeofday(&t0, 0);` of `times`, with
the function called for the reading as the parameter `gtod`. -/
def times_capture (gtod : State → Option (timeval × State)) (s : State) : Option State :=
  if s.t0.tv_sec = 0 then
    match gtod s with
    | none => none
    | some (r, s1) => some { s1 with t0 := r }
  else some s

/-- The body of `clock_t times(struct tms *buf)`, with the function it calls
for the wall-clock readings as the parameter `gtod`: the result is the return
value, the record left in `*buf`, and the new state. -/
def times_with (P : Platform) (gtod : State → Option (timeval × State)) (_buf : tms)
    (s : State) : Outcome (Int × tms × State) :=
  match times_capture gtod s with
  | none => Outcome.trapped
  | some s1 =>
    match gtod s1 with
    | none => Outcome.trapped
    | some (t, s2) =>
      match times_ticks P s1.t0 t with
      | none => Outcome.undefined
      | some ticks =>
        Outcome.returned (clock_t P (-1),
          { tms_utime := ticks, tms_stime := 0, tms_cutime := 0, tms_cstime := 0 }, s2)

/-- Embedding of `clock_t times(struct tms *buf)`: its body, calling
`gettimeofday`. -/
def times (P : Platform) (buf : tms) (s : State) : Outcome (Int × tms × State) :=
  times_with P (gettimeofday P) buf s

/-- Embedding of `int ftime(struct timeb *tp)`: the result is the return value,
the record left in `*tp`, and the new state. -/
def ftime (_P : Platform) (tp : timeb) (s : State) : Int × timeb × State :=
  (0, { tp with time := 0, millitm := 0 }, s)

/-- Embedding of `int utime(const char *path, const struct utimbuf *times)`. -/
def utime (_P : Platform) (_path _times : Nat) (s : State) : Int × State :=
  (-1, s)

/-- Embedding of `int chown(const char *path, uid_t owner, gid_t group)`. -/
def chown (_P : Platform) (_path : Nat) (_owner _group : Int) (s : State) : Int × State :=
  (-1, s)

/-- Embedding of `int chmod(const char *path, mode_t mode)`. -/
def chmod (_P : Platform) (_path : Nat) (_mode : Int) (s : State) : Int × State :=
  (-1, s)

/-- Embedding of `int chdir(const char *path)`. -/
def chdir (_P : Platform) (_path : Nat) (s : State) : Int × State :=
  (-1, s)

/-- The null pointer. -/
def NULL : Nat := 0

/-- Embedding of `char *getcwd(char *buf, size_t size)`. -/
def getcwd (_P : Platform) (_buf _size : Nat) (s : State) : Nat × State :=
  (NULL, s)

/-- Embedding of `long sysconf(int name)`. -/
def sysconf (P : Platform) (name : Int) (s : State) : Int × State :=
  if name = P._SC_CLK_TCK then (P.CLOCKS_PER_SEC, s) else (-1, s)

/-- Embedding of `void *sbrk(ptrdiff_t incr)`; `heap_end` is an
`unsigned long`, so its arithmetic is modulo `2 ^ XLEN`. -/
def sbrk (P : Platform) (incr : Int) (s : State) : Int × State :=
  let h0 := if s.heap_end = 0 then wrapU P.XLEN P._end else s.heap_end
  let h1 := wrapU P.XLEN (h0 + incr)
  (wrapU P.XLEN (h1 - incr), { s with heap_end := h1 })

/-- Embedding of `void _exit(int exit_status)`: the trap `sbreak`, after which
the caller is never resumed. -/
def _exit (_P : Platform) (_exit_status : Int) (_s : State) : Option (Unit × State) :=
  none

/-! ## Sequences of calls -/

/-- The calls `sbrk(d)` for the `d` of a list, in order: the returned
addresses and the final state. -/
def sbrk_calls (P : Platform) : List Int → State → List Int × State
  | [], s => ([], s)
  | d :: ds, s =>
    let r := sbrk P d s
    let rs := sbrk_calls P ds r.2
    (r.1 :: rs.1, rs.2)

/-- State after the calls `sbrk(d)` for the `d` of a list, in order. -/
def sbrk_run (P : Platform) (ds : List Int) (s : State) : State :=
  (sbrk_calls P ds s).2

/-- Memory holding the two bytes `72, 105` at address `0x100`. -/
def demo_mem : Nat → Nat := fun a => if a = 0x100 then 72 else if a = 0x101 then 105 else 0

/-- The value `(long)_end` stored in the `unsigned long` cursor: the base address. -/
def heap_base (P : Platform) : Int := wrapU P.XLEN P._end

/-- Microseconds from the reading `t0` to the reading `t`, as an integer. -/
def elapsed_usec (t0 t : timeval) : Int :=
  (t.tv_sec - t0.tv_sec) * 1000000 + (t.tv_usec - t0.tv_usec)

/-- No signed operation of the arithmetic of `times` overflows, `utime` is
representable in `long long`, and the tick count is below `2 ^ XLEN`, the range
of `clock_t`. -/
def times_in_range (P : Platform) (t0 t : timeval) : Prop :=
  fits_signed P.TIME_BITS (t.tv_sec - t0.tv_sec)
  ∧ fits_signed P.TIME_BITS ((t.tv_sec - t0.tv_sec) * 1000000)
  ∧ fits_signed P.XLEN (t.tv_usec - t0.tv_usec)
  ∧ fits_signed (max P.TIME_BITS P.XLEN) (elapsed_usec t0 t)
  ∧ fits_signed LLONG_BITS (elapsed_usec t0 t)
  ∧ fits_signed LLONG_BITS (elapsed_usec t0 t * P.CLOCKS_PER_SEC)
  ∧ elapsed_usec t0 t * P.CLOCKS_PER_SEC / 1000000 < 2 ^ P.XLEN

instance (P : Platform) (t0 t : timeval) : Decidable (times_in_range P t0 t) := by
  unfold times_in_range
  infer_instance

/-- A call records an error classification: whatever the error slot held
before the call, it holds one and the same code after it. -/
def records_error {α : Type} (f : State → α × State) : Prop :=
  ∃ e : Int, ∀ s : State, (f s).2.errno = e

/-! ## Machine integer lemmas -/

theorem wrapU_nonneg (w : Nat) (x : Int) : 0 ≤ wrapU w x := by
  unfold wrapU
  exact Int.emod_nonneg _ (by positivity)

theorem wrapU_lt (w : Nat) (x : Int) : wrapU w x < 2 ^ w := by
  unfold wrapU
  exact Int.emod_lt_of_pos _ (by positivity)

theorem wrapU_of_range (w : Nat) (x : Int) (h0 : 0 ≤ x) (h1 : x < 2 ^ w) : wrapU w x = x := by
  unfold wrapU
  exact Int.emod_eq_of_lt h0 h1

theorem wrapU_idem (w : Nat) (x : Int) : wrapU w (wrapU w x) = wrapU w x := by
  unfold wrapU
  exact Int.emod_emod_of_dvd _ (dvd_refl _)

theorem wrapU_add_left (w : Nat) (x y : Int) : wrapU w (wrapU w x + y) = wrapU w (x + y) := by
  unfold wrapU
  exact Int.emod_add_emod _ _ _

theorem wrapU_sub_left (w : Nat) (x y : Int) : wrapU w (wrapU w x - y) = wrapU w (x - y) := by
  rw [sub_eq_add_neg, wrapU_add_left, ← sub_eq_add_neg]

theorem two_pow_pred_double (w : Nat) (hw : 1 ≤ w) : (2 : Int) ^ w = 2 ^ (w - 1) + 2 ^ (w - 1) := by
  obtain ⟨k, rfl⟩ : ∃ k, w = k + 1 := ⟨w - 1, by omega⟩
  simp [pow_succ]
  ring

theorem wrapS_of_range (w : Nat) (x : Int) (hw : 1 ≤ w) (h0 : -(2 ^ (w - 1)) ≤ x)
    (h1 : x < 2 ^ (w - 1)) : wrapS w x = x := by
  unfold wrapS
  have h2 := two_pow_pred_double w hw
  rw [Int.emod_eq_of_lt (by linarith) (by linarith)]
  ring

/-! ## The loop of `write` -/

theorem load_char_dev (P : Platform) (s : State) (d : List (Nat × Nat)) (a : Nat) :
    load_char P { s with dev := d } a = load_char P s a := rfl

theorem mod_succ_add (M p n : Nat) : ((p + 1) % M + n) % M = (p + (n + 1)) % M := by
  rw [Nat.mod_add_mod]
  congr 1
  omega

theorem ptr_ne_eptr (M p n : Nat) (hp : p < M) (hn : n + 1 < M) : p ≠ (p + (n + 1)) % M := by
  intro h
  by_cases hlt : p + (n + 1) < M
  · rw [Nat.mod_eq_of_lt hlt] at h
    omega
  · have h2 : (p + (n + 1)) % M = p + (n + 1) - M := by
      rw [Nat.mod_eq_sub_mod (by omega)]
      exact Nat.mod_eq_of_lt (by omega)
    omega

/-- With enough fuel the loop stops after storing the bytes at `ptr`,
`ptr + 1`, ..., `ptr + n - 1` (addresses modulo `2 ^ XLEN`), in this order. -/
theorem write_loop_spec (P : Platform) (n : Nat) :
    ∀ (fuel ptr : Nat) (s : State), ptr < 2 ^ P.XLEN → n < 2 ^ P.XLEN → n ≤ fuel →
      write_loop P fuel ptr ((ptr + n) % 2 ^ P.XLEN) s
        = some { s with dev := s.dev ++
            (List.range n).map (fun i => (OUTPORT, load_char P s ((ptr + i) % 2 ^ P.XLEN))) } := by
  induction n with
  | zero =>
    intro fuel ptr s hp _ _
    unfold write_loop
    simp [Nat.mod_eq_of_lt hp]
  | succ n ih =>
    intro fuel ptr s hp hn hf
    obtain ⟨f, rfl⟩ : ∃ f, fuel = f + 1 := ⟨fuel - 1, by omega⟩
    unfold write_loop
    rw [if_neg (ptr_ne_eptr _ _ _ hp hn)]
    simp only
    rw [← mod_succ_add (2 ^ P.XLEN) ptr n,
      ih f _ _ (Nat.mod_lt _ (by positivity)) (by omega) (by omega)]
    simp only [load_char_dev, List.range_succ_eq_map, List.map_cons, List.map_map,
      List.append_assoc, List.singleton_append, Nat.add_zero, Nat.mod_eq_of_lt hp]
    congr 4
    apply List.map_congr_left
    intro i _
    simp only [Function.comp, Nat.succ_eq_add_one]
    rw [Nat.mod_add_mod]
    congr 3
    omega

/-- With less fuel than bytes the loop is still running when the fuel is used up. -/
theorem write_loop_none (P : Platform) (n : Nat) :
    ∀ (fuel ptr : Nat) (s : State), ptr < 2 ^ P.XLEN → n < 2 ^ P.XLEN → fuel < n →
      write_loop P fuel ptr ((ptr + n) % 2 ^ P.XLEN) s = none := by
  induction n with
  | zero => intro fuel ptr s _ _ hf; omega
  | succ n ih =>
    intro fuel ptr s hp hn hf
    unfold write_loop
    rw [if_neg (ptr_ne_eptr _ _ _ hp hn)]
    cases fuel with
    | zero => rfl
    | succ f =>
      simp only
      rw [← mod_succ_add (2 ^ P.XLEN) ptr n]
      exact ih f _ _ (Nat.mod_lt _ (by positivity)) (by omega) (by omega)

theorem char_to_uint_low (P : Platform) (b : Nat) (hb : b < 256) : char_to_uint P b % 256 = b := by
  unfold char_to_uint UINT_BITS
  split
  · omega
  · exact Nat.mod_eq_of_lt hb

theorem char_to_uint_unsigned (P : Platform) (b : Nat) (hc : P.CHAR_SIGNED = false) :
    char_to_uint P b = b := by
  simp [char_to_uint, hc]

theorem buffer_map (P : Platform) (ptr : Nat) (S : List Nat) (s : State)
    (hS : ∀ (i : Nat) (h : i < S.length), S[i] = s.mem ((ptr + i) % 2 ^ P.XLEN) % 256) :
    (List.range S.length).map (fun i => (OUTPORT, load_char P s ((ptr + i) % 2 ^ P.XLEN)))
      = S.map (fun b => (OUTPORT, char_to_uint P b)) := by
  apply List.ext_getElem
  · simp
  · intro i h1 h2
    simp only [List.length_map, List.length_range] at h1
    simp [load_char, hS i h1]

/-- The value returned by `write` once the loop has stopped. -/
theorem write_fst (P : Platform) (fuel : Nat) (file : Int) (ptr len : Nat) (s : State)
    (hptr : ptr < 2 ^ P.XLEN) (hlen : len < 2 ^ P.XLEN) (hfuel : len ≤ fuel) :
    (write P fuel file ptr len s).map Prod.fst = some (wrapS P.XLEN (len : Int)) := by
  unfold write
  simp only
  rw [write_loop_spec P len fuel ptr s hptr hlen hfuel]
  rfl

/-! ## `write` -/

/-- C1 (amended): for every file handle and every byte sequence `S` of length
`n` held in the buffer at `ptr`, `write(file, ptr, n)` makes exactly `n` stores
to the output register at `0x10000000`, the i-th store carrying the i-th byte
of `S` (in its low eight bits, and as the whole value when `char` is unsigned),
in source order; the loop stops after exactly `n` iterations (`n` units of fuel
are enough, fewer are not); the value returned is `n` converted to `ssize_t`,
which is `n` whenever `n < 2 ^ (XLEN - 1)`; for `n = 0` there is no store and
the result is 0. -/
theorem write_transfers_buffer (P : Platform) (file : Int) (ptr : Nat) (S : List Nat) (s : State)
    (hx : 1 ≤ P.XLEN) (hptr : ptr < 2 ^ P.XLEN) (hlen : S.length < 2 ^ P.XLEN)
    (hS : ∀ (i : Nat) (h : i < S.length), S[i] = s.mem ((ptr + i) % 2 ^ P.XLEN) % 256) :
    (∀ fuel, S.length ≤ fuel →
        write P fuel file ptr S.length s
          = some (wrapS P.XLEN S.length,
                  { s with dev := s.dev ++ S.map (fun b => (OUTPORT, char_to_uint P b)) }))
    ∧ (∀ fuel, fuel < S.length → write P fuel file ptr S.length s = none)
    ∧ (∀ b ∈ S, char_to_uint P b % 256 = b ∧ (P.CHAR_SIGNED = false → char_to_uint P b = b))
    ∧ (S.length < 2 ^ (P.XLEN - 1) → wrapS P.XLEN S.length = S.length)
    ∧ (S = [] → ∀ fuel, write P fuel file ptr 0 s = some (0, s)) := by
  refine ⟨?_, ?_, ?_, ?_, ?_⟩
  · intro fuel hf
    unfold write
    simp only
    rw [write_loop_spec P S.length fuel ptr s hptr hlen hf, buffer_map P ptr S s hS]
  · intro fuel hf
    unfold write
    simp only
    rw [write_loop_none P S.length fuel ptr s hptr hlen hf]
  · intro b hb
    obtain ⟨i, hi, rfl⟩ := List.getElem_of_mem hb
    refine ⟨char_to_uint_low P _ ?_, char_to_uint_unsigned P _⟩
    rw [hS i hi]
    exact Nat.mod_lt _ (by norm_num)
  · intro hn
    apply wrapS_of_range _ _ hx
    · have : (0 : Int) ≤ 2 ^ (P.XLEN - 1) := by positivity
      have : (0 : Int) ≤ (S.length : Int) := Int.natCast_nonneg _
      linarith
    · exact_mod_cast hn
  · intro _ fuel
    unfold write
    simp only [Nat.add_zero, Nat.mod_eq_of_lt hptr]
    unfold write_loop
    rw [if_pos rfl]
    simp only [Nat.cast_zero]
    rw [wrapS_of_range _ _ hx (by simp) (by positivity)]

theorem write_transfers_buffer_witness :
    write picorv32 2 1 0x100 2 (initial_state demo_mem [])
      = some (2, { initial_state demo_mem [] with dev := [(OUTPORT, 72), (OUTPORT, 105)] }) := by
  have h := (write_transfers_buffer picorv32 1 0x100 [72, 105] (initial_state demo_mem [])
    (by decide) (by decide) (by decide) (by decide)).1 2 (by decide)
  have h2 : wrapS picorv32.XLEN (([72, 105] : List Nat).length : Int) = 2 := by decide
  rw [h2] at h
  simpa [initial_state, char_to_uint, picorv32] using h

/-- C1, counterexample to the claim as stated: on the 32 bit target a buffer of
`n = 2 ^ 31` bytes is written in full, and the call returns `-2 ^ 31`, not `n`. -/
theorem write_return_counterexample :
    (write picorv32 2147483648 1 0x20000000 2147483648 (initial_state (fun _ => 0) [])).map
        Prod.fst = some (-2147483648)
    ∧ ((-2147483648 : Int) ≠ ((2147483648 : Nat) : Int)) := by
  constructor
  · have h := write_fst picorv32 2147483648 1 0x20000000 2147483648
      (initial_state (fun _ => 0) []) (by decide) (by decide) (le_refl _)
    rw [h]
    decide
  · decide

/-! ## `sbrk` -/

theorem sbrk_fst (P : Platform) (d : Int) (s : State) :
    (sbrk P d s).1 = wrapU P.XLEN (if s.heap_end = 0 then heap_base P else s.heap_end) := by
  simp only [sbrk, heap_base]
  rw [wrapU_sub_left]
  congr 1
  ring

theorem sbrk_heap_end (P : Platform) (d : Int) (s : State) :
    (sbrk P d s).2.heap_end
      = wrapU P.XLEN ((if s.heap_end = 0 then heap_base P else s.heap_end) + d) := by
  simp only [sbrk, heap_base]

theorem sbrk_run_cons (P : Platform) (d : Int) (ds : List Int) (s : State) :
    sbrk_run P (d :: ds) s = sbrk_run P ds (sbrk P d s).2 := rfl

theorem sbrk_run_nil (P : Platform) (s : State) : sbrk_run P [] s = s := rfl

/-- From a cursor that is not zero and does not become zero, the cursor follows the sum of
the deltas. -/
theorem sbrk_run_heap (P : Platform) (ds : List Int) :
    ∀ (s : State) (c : Int), s.heap_end = wrapU P.XLEN c →
      (∀ j, j < ds.length → wrapU P.XLEN (c + (ds.take j).sum) ≠ 0) →
      (sbrk_run P ds s).heap_end = wrapU P.XLEN (c + ds.sum) := by
  induction ds with
  | nil => intro s c hs _; simpa [sbrk_run_nil] using hs
  | cons d ds ih =>
    intro s c hs hnz
    have h0 : s.heap_end ≠ 0 := by
      have := hnz 0 (by simp)
      simpa [hs] using this
    rw [sbrk_run_cons, ih (sbrk P d s).2 (c + d)]
    · simp only [List.sum_cons]
      congr 1
      ring
    · rw [sbrk_heap_end, if_neg h0, hs, wrapU_add_left]
    · intro j hj
      have := hnz (j + 1) (by simpa using hj)
      simpa [List.take_succ_cons, add_assoc] using this

/-- From the zero cursor of process start: after at least one call the cursor is the base
plus the sum of the deltas, as long as it did not pass through zero in between. -/
theorem sbrk_run_from_start (P : Platform) (ds : List Int) (s : State) (h0 : s.heap_end = 0)
    (hne : ds ≠ [])
    (hnz : ∀ j, 1 ≤ j → j < ds.length → wrapU P.XLEN (heap_base P + (ds.take j).sum) ≠ 0) :
    (sbrk_run P ds s).heap_end = wrapU P.XLEN (heap_base P + ds.sum) := by
  cases ds with
  | nil => exact absurd rfl hne
  | cons d ds =>
    rw [sbrk_run_cons, sbrk_run_heap P ds (sbrk P d s).2 (heap_base P + d)]
    · simp only [List.sum_cons]
      congr 1
      ring
    · rw [sbrk_heap_end, if_pos h0]
    · intro j hj
      have := hnz (j + 1) (by omega) (by simpa using hj)
      simpa [List.take_succ_cons, add_assoc] using this

theorem sbrk_calls_getElem (P : Platform) (ds : List Int) :
    ∀ (s : State) (k : Nat) (hk : k < ds.length),
      (sbrk_calls P ds s).1[k]? = some (sbrk P ds[k] (sbrk_run P (ds.take k) s)).1 := by
  induction ds with
  | nil => intro s k hk; simp at hk
  | cons d ds ih =>
    intro s k hk
    cases k with
    | zero => simp [sbrk_calls, sbrk_run_nil]
    | succ k =>
      have hk2 : k < ds.length := by simpa using hk
      simp only [sbrk_calls, List.getElem?_cons_succ, List.take_succ_cons, sbrk_run_cons,
        List.getElem_cons_succ]
      exact ih _ k hk2

/-- C2 (amended): from a state whose heap cursor is not yet initialised, for
all deltas `D1` and `D2` such that the cursor is not zero after the first call
(or the base address itself is zero), `sbrk(D1)` returns the base address `B`,
the following `sbrk(D2)` returns `B + D1`, and the cursor is then
`B + D1 + D2`, all modulo `2 ^ XLEN`. -/
theorem sbrk_first_two_calls (P : Platform) (D1 D2 : Int) (s : State) (h0 : s.heap_end = 0)
    (hnz : wrapU P.XLEN (heap_base P + D1) ≠ 0 ∨ heap_base P = 0) :
    (sbrk P D1 s).1 = heap_base P
    ∧ (sbrk P D2 (sbrk P D1 s).2).1 = wrapU P.XLEN (heap_base P + D1)
    ∧ (sbrk P D2 (sbrk P D1 s).2).2.heap_end = wrapU P.XLEN (heap_base P + D1 + D2) := by
  have h1 : (sbrk P D1 s).2.heap_end = wrapU P.XLEN (heap_base P + D1) := by
    rw [sbrk_heap_end, if_pos h0]
  have h2 : (if (sbrk P D1 s).2.heap_end = 0 then heap_base P else (sbrk P D1 s).2.heap_end)
      = wrapU P.XLEN (heap_base P + D1) := by
    rw [h1]
    rcases hnz with h | h
    · rw [if_neg h]
    · split
      · next hz => rw [hz, h]
      · rfl
  refine ⟨?_, ?_, ?_⟩
  · rw [sbrk_fst, if_pos h0]
    exact wrapU_idem _ _
  · rw [sbrk_fst, h2, wrapU_idem]
  · rw [sbrk_heap_end, h2, wrapU_add_left]

theorem sbrk_first_two_calls_witness :
    (sbrk picorv32 16 (initial_state demo_mem [])).1 = 0x10000
    ∧ (sbrk picorv32 32 (sbrk picorv32 16 (initial_state demo_mem [])).2).1 = 0x10010
    ∧ (sbrk picorv32 32 (sbrk picorv32 16 (initial_state demo_mem [])).2).2.heap_end = 0x10030 :=
  sbrk_first_two_calls picorv32 16 32 (initial_state demo_mem []) rfl (Or.inl (by decide))

/-- C2, counterexample to the claim as stated: with `B = 0x10000` and
`D1 = -0x10000` the first call leaves the cursor at zero, so the second call
takes the base address again: it returns `B`, not `B + D1 = 0`, and leaves the
cursor at `B + D2`, not at `B + D1 + D2`. -/
theorem sbrk_first_two_calls_counterexample :
    (sbrk picorv32 16 (sbrk picorv32 (-0x10000) (initial_state demo_mem [])).2).1 = 0x10000
    ∧ wrapU picorv32.XLEN (heap_base picorv32 + (-0x10000)) = 0
    ∧ (sbrk picorv32 16 (sbrk picorv32 (-0x10000) (initial_state demo_mem [])).2).2.heap_end
        = 0x10010
    ∧ wrapU picorv32.XLEN (heap_base picorv32 + (-0x10000) + 16) = 16 := by
  decide

/-- C3 (amended): for every finite sequence of deltas issued from a state
whose cursor is not yet initialised, if the cursor is not zero after any call
but possibly the last, then call number `k + 1` returns the base address plus
the sum of the first `k` deltas (modulo `2 ^ XLEN`), and every call after the
first finds a cursor that is not zero, so it does not take the branch that
assigns the base address. -/
theorem sbrk_kth_call (P : Platform) (ds : List Int) (s : State) (h0 : s.heap_end = 0)
    (hnz : ∀ j, 1 ≤ j → j < ds.length → wrapU P.XLEN (heap_base P + (ds.take j).sum) ≠ 0) :
    ∀ (k : Nat), k < ds.length →
      (sbrk_calls P ds s).1[k]? = some (wrapU P.XLEN (heap_base P + (ds.take k).sum))
      ∧ (1 ≤ k → (sbrk_run P (ds.take k) s).heap_end ≠ 0) := by
  intro k hk
  have hstate : 1 ≤ k →
      (sbrk_run P (ds.take k) s).heap_end = wrapU P.XLEN (heap_base P + (ds.take k).sum) := by
    intro h1
    apply sbrk_run_from_start P (ds.take k) s h0
    · intro h
      have hl : (ds.take k).length = k := by
        rw [List.length_take]
        omega
      rw [h] at hl
      simp at hl
      omega
    · intro j hj1 hj2
      have hjk : j < k := by
        simp at hj2
        omega
      rw [List.take_take, Nat.min_eq_left (le_of_lt hjk)]
      exact hnz j hj1 (by omega)
  constructor
  · rw [sbrk_calls_getElem P ds s k hk, sbrk_fst]
    congr 1
    rcases Nat.eq_zero_or_pos k with rfl | hpos
    · simp [sbrk_run_nil, h0, wrapU_idem, heap_base]
    · rw [hstate hpos, if_neg (hnz k hpos hk), wrapU_idem]
  · intro h1
    rw [hstate h1]
    exact hnz k h1 hk

theorem sbrk_kth_call_witness :
    (sbrk_calls picorv32 [16, -8, 32] (initial_state demo_mem [])).1[2]? = some 0x10008
    ∧ (sbrk_run picorv32 ([16, -8, 32].take 2) (initial_state demo_mem [])).heap_end ≠ 0 := by
  have h := sbrk_kth_call picorv32 [16, -8, 32] (initial_state demo_mem []) rfl
    (by decide) 2 (by decide)
  exact ⟨h.1, h.2 (by decide)⟩

/-- C3, counterexample to the claim as stated: with `B = 0x10000` and the
deltas `16, -0x10010, 4` the cursor is zero after the second call, so the
third call assigns the base address again and returns `B`, not
`B + 16 - 0x10010 = 0`. -/
theorem sbrk_kth_call_counterexample :
    (sbrk_run picorv32 [16, -0x10010] (initial_state demo_mem [])).heap_end = 0
    ∧ (sbrk_calls picorv32 [16, -0x10010, 4] (initial_state demo_mem [])).1[2]? = some 0x10000
    ∧ wrapU picorv32.XLEN (heap_base picorv32 + ([16, -0x10010, 4].take 2).sum) = 0 := by
  decide

/-! ## `times` -/

theorem checked_of_fits (w : Nat) (x : Int) (h : fits_signed w x) : checked w x = some x := by
  simp [checked, h]

theorem wrapS_of_fits (w : Nat) (x : Int) (h : fits_signed w x) : wrapS w x = x :=
  wrapS_of_range w x h.1 h.2.1 h.2.2

theorem times_ticks_exact (P : Platform) (t0 t : timeval) (hle : 0 ≤ elapsed_usec t0 t)
    (hcps : 0 ≤ P.CLOCKS_PER_SEC) (hrange : times_in_range P t0 t) :
    times_ticks P t0 t = some (elapsed_usec t0 t * P.CLOCKS_PER_SEC / 1000000) := by
  obtain ⟨h1, h2, h3, h4, h5, h6, h7⟩ := hrange
  have hprod : 0 ≤ elapsed_usec t0 t * P.CLOCKS_PER_SEC := mul_nonneg hle hcps
  unfold elapsed_usec at h4 h5 h6 h7 hprod ⊢
  simp only [times_ticks, checked_of_fits _ _ h1, checked_of_fits _ _ h2,
    checked_of_fits _ _ h3, checked_of_fits _ _ h4, wrapS_of_fits _ _ h5,
    checked_of_fits _ _ h6]
  rw [Int.tdiv_eq_ediv hprod (by norm_num)]
  exact congrArg some (wrapU_of_range _ _ (Int.ediv_nonneg hprod (by norm_num)) h7)

/-- As built, with `gettimeofday` a trap, `times` never returns. -/
theorem times_traps (P : Platform) (buf : tms) (s : State) :
    times P buf s = Outcome.trapped := by
  unfold times times_with times_capture gettimeofday
  by_cases h0 : s.t0.tv_sec = 0 <;> simp [h0]

theorem times_capture_first (s : State) (r : timeval) (rest : List timeval)
    (h0 : s.t0.tv_sec = 0) (hclk : s.clock = r :: rest) :
    times_capture clock_source s = some { s with t0 := r, clock := rest } := by
  simp [times_capture, clock_source, h0, hclk]

theorem times_capture_later (gtod : State → Option (timeval × State)) (s : State)
    (h0 : s.t0.tv_sec ≠ 0) : times_capture gtod s = some s := by
  simp [times_capture, h0]

theorem times_with_later (P : Platform) (buf : tms) (s : State) (t : timeval)
    (rest : List timeval) (ticks : Int) (h0 : s.t0.tv_sec ≠ 0) (hclk : s.clock = t :: rest)
    (hticks : times_ticks P s.t0 t = some ticks) :
    times_with P clock_source buf s
      = Outcome.returned (clock_t P (-1), ⟨ticks, 0, 0, 0⟩, { s with clock := rest }) := by
  simp [times_with, times_capture_later clock_source s h0, clock_source, hclk, hticks]

theorem times_with_first (P : Platform) (buf : tms) (s : State) (r t : timeval)
    (rest : List timeval) (ticks : Int) (h0 : s.t0.tv_sec = 0)
    (hclk : s.clock = r :: t :: rest) (hticks : times_ticks P r t = some ticks) :
    times_with P clock_source buf s
      = Outcome.returned (clock_t P (-1), ⟨ticks, 0, 0, 0⟩,
          { s with t0 := r, clock := rest }) := by
  simp [times_with, times_capture_first s r (t :: rest) h0 hclk, clock_source, hticks]

theorem times_with_sentinel (P : Platform) (gtod : State → Option (timeval × State))
    (buf : tms) (s : State) (r : Int × tms × State)
    (h : times_with P gtod buf s = Outcome.returned r) : r.1 = clock_t P (-1) := by
  unfold times_with at h
  split at h
  · simp at h
  · split at h
    · simp at h
    · split at h
      · simp at h
      · simp only [Outcome.returned.injEq] at h
        rw [← h]

/-- C4 (amended): as built, `times` never returns, because `gettimeofday` is a
trap that does not return; it stores nothing and returns no value.  When an
external source of readings stands in for `gettimeofday`, then for every origin
reading `t0` (the reading taken by this call when the stored origin has zero
seconds, else the stored origin) and every current reading `t` not earlier than
`t0`, such that no signed operation overflows and the tick count fits
`clock_t`, the body of `times` stores in `buf.tms_utime` the value
`((t.sec - t0.sec) * 1000000 + (t.usec - t0.usec)) * CLOCKS_PER_SEC / 1000000`,
which is `>= 0`, sets the other three fields to 0 and returns `(clock_t)-1`;
whatever stands in for `gettimeofday`, a return of the body is a return of
`(clock_t)-1`. -/
theorem times_stores_elapsed_ticks (P : Platform) (buf : tms) (s : State) (t0 t : timeval)
    (rest : List timeval)
    (hstate : (s.t0.tv_sec = 0 ∧ s.clock = t0 :: t :: rest)
      ∨ (s.t0.tv_sec ≠ 0 ∧ s.t0 = t0 ∧ s.clock = t :: rest))
    (hle : t0.tv_sec * 1000000 + t0.tv_usec ≤ t.tv_sec * 1000000 + t.tv_usec)
    (hcps : 0 ≤ P.CLOCKS_PER_SEC)
    (hrange : times_in_range P t0 t) :
    times_with P clock_source buf s
        = Outcome.returned (clock_t P (-1),
            ⟨((t.tv_sec - t0.tv_sec) * 1000000 + (t.tv_usec - t0.tv_usec)) * P.CLOCKS_PER_SEC
                / 1000000, 0, 0, 0⟩,
            { s with t0 := t0, clock := rest })
    ∧ 0 ≤ ((t.tv_sec - t0.tv_sec) * 1000000 + (t.tv_usec - t0.tv_usec)) * P.CLOCKS_PER_SEC
            / 1000000
    ∧ (∀ (gtod : State → Option (timeval × State)) (b : tms) (s1 : State)
        (r : Int × tms × State), times_with P gtod b s1 = Outcome.returned r →
        r.1 = clock_t P (-1))
    ∧ (∀ (b : tms) (s1 : State), times P b s1 = Outcome.trapped) := by
  have hel : 0 ≤ elapsed_usec t0 t := by
    unfold elapsed_usec
    linarith
  have hticks := times_ticks_exact P t0 t hel hcps hrange
  unfold elapsed_usec at hticks hel
  refine ⟨?_, Int.ediv_nonneg (mul_nonneg hel hcps) (by norm_num), ?_, ?_⟩
  · rcases hstate with ⟨h0, hclk⟩ | ⟨h0, ht0, hclk⟩
    · rw [times_with_first P buf s t0 t rest _ h0 hclk hticks]
    · rw [times_with_later P buf s t rest _ h0 hclk (by rw [ht0]; exact hticks), ht0]
  · intro gtod b s1 r h
    exact times_with_sentinel P gtod b s1 r h
  · intro b s1
    exact times_traps P b s1

theorem times_stores_elapsed_ticks_witness :
    times_with picorv32 clock_source ⟨7, 7, 7, 7⟩
        (initial_state demo_mem [⟨100, 5⟩, ⟨103, 2⟩])
      = Outcome.returned (4294967295, ⟨2999997, 0, 0, 0⟩,
          { initial_state demo_mem [⟨100, 5⟩, ⟨103, 2⟩] with t0 := ⟨100, 5⟩, clock := [] }) := by
  have h := (times_stores_elapsed_ticks picorv32 ⟨7, 7, 7, 7⟩
    (initial_state demo_mem [⟨100, 5⟩, ⟨103, 2⟩]) ⟨100, 5⟩ ⟨103, 2⟩ []
    (Or.inl ⟨rfl, rfl⟩) (by decide) (by decide) (by decide)).1
  have h1 : clock_t picorv32 (-1) = 4294967295 := by decide
  have h2 : (((103 : Int) - 100) * 1000000 + (2 - 5)) * picorv32.CLOCKS_PER_SEC / 1000000
      = 2999997 := by decide
  rw [h1] at h
  simp only [h2] at h
  exact h

/-- C4, counterexample to the claim as stated.  As built, `times` does not
return, so it stores and returns nothing.  With an external source of readings
in the place of `gettimeofday`, on the 32 bit target with the origin
`(1 s, 0 us)` and the current reading `(4296 s, 0 us)`, no signed operation
overflows, the claimed value is `4295000000`, and `tms_utime` receives `32704`,
that value reduced modulo `2 ^ 32`. -/
theorem times_ticks_counterexample :
    (times picorv32 ⟨0, 0, 0, 0⟩
        { initial_state demo_mem [⟨4296, 0⟩] with t0 := ⟨1, 0⟩ }).map (fun r => r.2.1.tms_utime)
      = Outcome.trapped
    ∧ (times_with picorv32 clock_source ⟨0, 0, 0, 0⟩
        { initial_state demo_mem [⟨4296, 0⟩] with t0 := ⟨1, 0⟩ }).map (fun r => r.2.1.tms_utime)
      = Outcome.returned 32704
    ∧ (((4296 : Int) - 1) * 1000000 + (0 - 0)) * picorv32.CLOCKS_PER_SEC / 1000000 = 4295000000
    ∧ (1 : Int) * 1000000 + 0 ≤ 4296 * 1000000 + 0 := by
  refine ⟨?_, ?_, ?_, ?_⟩
  · rw [times_traps]
    rfl
  · decide
  · decide
  · decide

theorem open_records_error (P : Platform) (name : Nat) (flags mode : Int) :
    records_error (open_ P name flags mode) :=
  ⟨P.ENOENT, fun _ => rfl⟩

/-- C6: for arbitrary arguments (null pointers and every handle value
included) and every prior state, each error stub returns -1 and leaves its
documented code in `errno`, changing nothing else: `ENOENT` for `open`,
`openat`, `fstat`, `stat`, `lstat`, `fstatat`, `access`, `faccessat`, `link`
and `unlink`, `ESPIPE` for `lseek`, `ENOMEM` for `execve`, `EAGAIN` for `fork`,
`EINVAL` for `kill`, `ECHILD` for `wait`. -/
theorem error_stubs (P : Platform) (s : State) (p q r : Nat) (a b c : Int) :
    open_ P p a b s = (-1, { s with errno := P.ENOENT })
    ∧ openat P a p b c s = (-1, { s with errno := P.ENOENT })
    ∧ fstat P a p s = (-1, { s with errno := P.ENOENT })
    ∧ stat P p q s = (-1, { s with errno := P.ENOENT })
    ∧ lstat P p q s = (-1, { s with errno := P.ENOENT })
    ∧ fstatat P a p q b s = (-1, { s with errno := P.ENOENT })
    ∧ access P p a s = (-1, { s with errno := P.ENOENT })
    ∧ faccessat P a p b c s = (-1, { s with errno := P.ENOENT })
    ∧ link P p q s = (-1, { s with errno := P.ENOENT })
    ∧ unlink P p s = (-1, { s with errno := P.ENOENT })
    ∧ lseek P a b c s = (-1, { s with errno := P.ESPIPE })
    ∧ execve P p q r s = (-1, { s with errno := P.ENOMEM })
    ∧ fork P s = (-1, { s with errno := P.EAGAIN })
    ∧ kill P a b s = (-1, { s with errno := P.EINVAL })
    ∧ wait P p s = (-1, { s with errno := P.ECHILD }) :=
  ⟨rfl, rfl, rfl, rfl, rfl, rfl, rfl, rfl, rfl, rfl, rfl, rfl, rfl, rfl, rfl⟩

/-- C7: for every configuration key `k`, `sysconf(k)` returns `CLOCKS_PER_SEC`
when `k` is `_SC_CLK_TCK` and -1 for every other key; the state is left as it
is. -/
theorem sysconf_clk_tck (P : Platform) (s : State) :
    sysconf P P._SC_CLK_TCK s = (P.CLOCKS_PER_SEC, s)
    ∧ ∀ k : Int, k ≠ P._SC_CLK_TCK → sysconf P k s = (-1, s) := by
  constructor
  · simp [sysconf]
  · intro k hk
    simp [sysconf, hk]

theorem sysconf_clk_tck_witness :
    sysconf picorv32 2 (initial_state demo_mem []) = (1000000, initial_state demo_mem [])
    ∧ sysconf picorv32 7 (initial_state demo_mem []) = (-1, initial_state demo_mem []) :=
  ⟨(sysconf_clk_tck picorv32 (initial_state demo_mem [])).1,
   (sysconf_clk_tck picorv32 (initial_state demo_mem [])).2 7 (by decide)⟩

/-- C8: for every prior content of the time record, `ftime(tp)` sets `tp.time`
and `tp.millitm` to 0, leaves the other fields and the state as they are, and
returns 0. -/
theorem ftime_zeroes (P : Platform) (tp : timeb) (s : State) :
    (ftime P tp s).1 = 0
    ∧ (ftime P tp s).2.1.time = 0
    ∧ (ftime P tp s).2.1.millitm = 0
    ∧ ftime P tp s = (0, ⟨0, 0, tp.timezone, tp.dstflag⟩, s) :=
  ⟨rfl, rfl, rfl, rfl⟩

/-- C9: `read` returns 0 for every handle, buffer and length, `close` returns 0
for every handle, `getpid` returns 1 and `isatty` returns 1 for every handle;
each leaves the whole state (memory, error slot, heap cursor, output device)
as it is, and this stays so after any number `n` of earlier calls. -/
theorem trivial_successes (P : Platform) (s : State) (file : Int) (ptr len n : Nat) :
    read P file ptr len s = (0, s)
    ∧ close P file s = (0, s)
    ∧ getpid P s = (1, s)
    ∧ isatty P file s = (1, s)
    ∧ read P file ptr len ((fun x => (read P file ptr len x).2)^[n] s) = (0, s)
    ∧ close P file ((fun x => (close P file x).2)^[n] s) = (0, s)
    ∧ getpid P ((fun x => (getpid P x).2)^[n] s) = (1, s)
    ∧ isatty P file ((fun x => (isatty P file x).2)^[n] s) = (1, s) := by
  refine ⟨rfl, rfl, rfl, rfl, ?_, ?_, ?_, ?_⟩
  · rw [Function.iterate_fixed (by rfl)]; rfl
  · rw [Function.iterate_fixed (by rfl)]; rfl
  · rw [Function.iterate_fixed (by rfl)]; rfl
  · rw [Function.iterate_fixed (by rfl)]; rfl

/-- C10 (amended): for every input, `utime`, `chown`, `chmod` and `chdir`
return -1 and `getcwd` returns the null pointer; none of them writes the error
slot: the state, `errno` included, is the one before the call. -/
theorem silent_stubs (P : Platform) (s : State) (p q : Nat) (a b : Int) :
    utime P p q s = (-1, s)
    ∧ chown P p a b s = (-1, s)
    ∧ chmod P p a s = (-1, s)
    ∧ chdir P p s = (-1, s)
    ∧ getcwd P p q s = (NULL, s)
    ∧ (utime P p q s).2.errno = s.errno
    ∧ (chown P p a b s).2.errno = s.errno
    ∧ (chmod P p a s).2.errno = s.errno
    ∧ (chdir P p s).2.errno = s.errno
    ∧ (getcwd P p q s).2.errno = s.errno :=
  ⟨rfl, rfl, rfl, rfl, rfl, rfl, rfl, rfl, rfl, rfl⟩

/-- C10, counterexample to the claim as stated: called with `errno = 0`, each
of the five stubs returns with `errno` still 0, and none of them records an
error code: the slot holds after the call what it held before. -/
theorem silent_stubs_counterexample :
    (utime picorv32 NULL NULL (initial_state demo_mem [])).2.errno = 0
    ∧ (chown picorv32 NULL 0 0 (initial_state demo_mem [])).2.errno = 0
    ∧ (chmod picorv32 NULL 0 (initial_state demo_mem [])).2.errno = 0
    ∧ (chdir picorv32 NULL (initial_state demo_mem [])).2.errno = 0
    ∧ (getcwd picorv32 NULL 0 (initial_state demo_mem [])).2.errno = 0
    ∧ ¬ records_error (utime picorv32 NULL NULL)
    ∧ ¬ records_error (chown picorv32 NULL 0 0)
    ∧ ¬ records_error (chmod picorv32 NULL 0)
    ∧ ¬ records_error (chdir picorv32 NULL)
    ∧ ¬ records_error (getcwd picorv32 NULL 0) := by
  have key : ∀ {α : Type} (f : State → α × State), (∀ s, (f s).2 = s) → ¬ records_error f := by
    intro α f hf ⟨e, he⟩
    have h1 := he (initial_state demo_mem [])
    have h2 := he { initial_state demo_mem [] with errno := 1 }
    rw [hf] at h1 h2
    simp only [initial_state] at h1 h2
    omega
  exact ⟨rfl, rfl, rfl, rfl, rfl, key _ (fun _ => rfl), key _ (fun _ => rfl),
    key _ (fun _ => rfl), key _ (fun _ => rfl), key _ (fun _ => rfl)⟩

end Syscalls
